import Mathlib

/-!
Verification of the `jsonhandler` Go package (marcusirgens/jsonhandler)
against its natural-language specification.

The development is a shallow embedding of the package's source:

* `GoType` records exactly the structural facts about a Go type that the
  reflection-based validator queries (`Implements(error)`,
  `Implements(context.Context)`, `Kind() == Slice && Elem().Kind() == Func`,
  `Elem().ConvertibleTo(ResponseFunc)`).
* `getReturnType`, `validateContext`, `parsePayload`, `parseArgs`,
  `parseReturns` and `parseHandler` are direct translations of the functions
  of the same names; construction failure (which `NewHandler` turns into a
  panic) is modelled by `Except.error`.
* The per-request dispatcher `ServeHTTP`, `handleError` and `writeJSON`
  are translated as functions producing a trace of operations performed on
  the `http.ResponseWriter` (`WEvent`); `commit` folds such a trace with the
  collaborator's semantics (first `WriteHeader` wins, header mutations after
  the status line is committed are ignored, writes append to the body).
* The wrapped function supplied by the user is an explicit parameter
  `fn : Option GoVal → List GoVal` (its payload argument, its return values);
  a `ResponseFunc` callback is modelled by the sequence of operations it
  performs on the `Response` carrier, which is all a callback can do to it.
-/

namespace Jsonhandler

/-- The structural facts about a Go type used by the validator's
reflection queries. -/
structure GoType where
  name : String
  implementsError : Bool
  implementsContext : Bool
  isSliceOfFunc : Bool
  elemConvertibleToResponseFunc : Bool
  deriving DecidableEq, Repr

/-- `returnType` enumeration from the source (`returnInvalid`,
`returnPayload`, `returnOpts`, `returnErr`). -/
inductive ReturnType where
  | invalid
  | payload
  | opts
  | err
  deriving DecidableEq, Repr

/-- `context.Context`. -/
def goContextType : GoType := ⟨"context.Context", false, true, false, false⟩

/-- `string`: implements neither `error` nor `context.Context`. -/
def goStringType : GoType := ⟨"string", false, false, false, false⟩

/-- The `error` interface type. -/
def goErrorType : GoType := ⟨"error", true, false, false, false⟩

/-- `[]ResponseFunc`: a slice of funcs whose element type is convertible to
`ResponseFunc`. -/
def goResponseFuncSliceType : GoType := ⟨"[]ResponseFunc", false, false, true, true⟩

/-- `chan int`: a type that is neither an error nor a callback slice and
whose values cannot be marshalled to JSON. -/
def goChanType : GoType := ⟨"chan int", false, false, false, false⟩

/-- `getReturnType` from the source: error capability first, then slice of
funcs convertible to `ResponseFunc`, everything else is a payload. -/
def getReturnType (ret : GoType) : ReturnType :=
  if ret.implementsError then .err
  else if ret.isSliceOfFunc && ret.elemConvertibleToResponseFunc then .opts
  else .payload

/-- `validateContext` from the source. -/
def validateContext (arg : GoType) : Except String Unit :=
  if arg.implementsContext then .ok ()
  else .error "first argument of handler does not implement context.Context"

/-- `parsePayload` from the source: it sets `takesPayload`/`payloadType`
only when `NumIn() == 2`, and never fails. Returned here as the pair
(takesPayload, payloadType) instead of mutating the handler struct. -/
def parsePayload (ins : List GoType) : Bool × Option GoType :=
  if ins.length ≠ 2 then (false, none)
  else (true, ins[1]?)

/-- `parseArgs` from the source: at least one input, the first must
implement `context.Context`, then `parsePayload`. -/
def parseArgs (ins : List GoType) : Except String (Bool × Option GoType) :=
  match ins with
  | [] => .error "handler function must take a context.Context as its first argument"
  | a0 :: _ => do
      let _ ← validateContext a0
      .ok (parsePayload ins)

/-- The three role positions tracked by the handler struct
(`errN`, `outN`, `optsN`), `-1` meaning absent. -/
structure Roles where
  errN : Int
  outN : Int
  optsN : Int
  deriving DecidableEq, Repr

/-- The classification loop of `parseReturns`: each return position is
classified and the corresponding field overwritten (a later position with
the same role silently replaces an earlier one, exactly as in the source). -/
def classifyReturns : Nat → List GoType → Roles → Except String Roles
  | _, [], r => .ok r
  | i, t :: ts, r =>
    match getReturnType t with
    | .err => classifyReturns (i + 1) ts { r with errN := (i : Int) }
    | .payload => classifyReturns (i + 1) ts { r with outN := (i : Int) }
    | .opts => classifyReturns (i + 1) ts { r with optsN := (i : Int) }
    | .invalid => .error ("invalid return type in position " ++ toString i)

/-- `parseReturns` from the source: up to three return values, classified
structurally, then the two positional checks. -/
def parseReturns (outs : List GoType) : Except String Roles :=
  let n := outs.length
  if n = 0 then .ok ⟨-1, -1, -1⟩
  else if n > 3 then .error "too many return values"
  else do
    let roles ← classifyReturns 0 outs ⟨-1, -1, -1⟩
    if n > 1 ∧ roles.errN ≥ 0 ∧ roles.errN < (n : Int) - 1 then
      .error "error must be the last return value"
    else if n > 0 ∧ roles.outN ≥ 0 ∧ roles.outN ≠ 0 then
      .error "the payload must be the first return value"
    else
      .ok roles

/-- A candidate value handed to `NewHandler`: nil, a non-function value, or
a function with the given input and output types. -/
inductive Candidate where
  | nilCand
  | notFunc (desc : String)
  | func (ins : List GoType) (outs : List GoType)
  deriving DecidableEq, Repr

/-- The metadata fields of the `handler` struct filled in by `parseHandler`
(the reflection handles `fn`, `hv`, `ht` carry no further information in
the embedding; the callable itself is passed to `ServeHTTP` separately). -/
structure HandlerDesc where
  takesPayload : Bool
  payloadType : Option GoType
  errN : Int
  outN : Int
  optsN : Int
  deriving DecidableEq, Repr

/-- `parseHandler` from the source; `NewHandler` panics exactly when this
returns an error. -/
def parseHandler (c : Candidate) : Except String HandlerDesc :=
  match c with
  | .nilCand => .error "nil handlers are invalid"
  | .notFunc _ => .error "handler must be a function"
  | .func ins outs => do
      let (tp, pt) ← parseArgs ins
      let roles ← parseReturns outs
      .ok ⟨tp, pt, roles.errN, roles.outN, roles.optsN⟩

/-- Whether `NewHandler` succeeds (does not panic) on a candidate. -/
def constructionSucceeds (c : Candidate) : Bool :=
  match parseHandler c with
  | .ok _ => true
  | .error _ => false

/-- C1: the claim says that a candidate with a context first parameter and
more than one additional parameter is rejected by `parseHandler`.  The code
accepts it: `parsePayload` returns nil whenever `NumIn() != 2`, so a
three-input function passes validation (with `takesPayload = false`) even
though `NewHandler`'s documentation promises a panic for every signature
not in its list. -/
theorem c1_three_input_function_accepted :
    parseHandler (Candidate.func [goContextType, goStringType, goStringType] []) =
      Except.ok ⟨false, none, -1, -1, -1⟩ ∧
    constructionSucceeds
      (Candidate.func [goContextType, goStringType, goStringType] []) = true :=
  ⟨rfl, rfl⟩

/-- C2: the claim says that a candidate two of whose return positions are
both classified error-role is rejected.  The code accepts
`func(context.Context) (error, error)`: the classification loop simply
overwrites `errN`, which ends at the last position and so passes the
"error must be last" check. -/
theorem c2_double_error_return_accepted :
    getReturnType goErrorType = ReturnType.err ∧
    parseHandler (Candidate.func [goContextType] [goErrorType, goErrorType]) =
      Except.ok ⟨false, none, 1, -1, -1⟩ :=
  ⟨rfl, rfl⟩

/-- C9: the claim says that whenever an error-role return exists at a
position other than the last (among two or more returns), construction
fails.  For `func(context.Context) (error, error)` the first return is
error-role and sits at position 0, not the last position 1, yet
construction succeeds, because only the last error-classified position is
remembered and checked. -/
theorem c9_nonlast_error_role_accepted :
    getReturnType goErrorType = ReturnType.err ∧
    (0 : Nat) ≠ [goErrorType, goErrorType].length - 1 ∧
    constructionSucceeds
      (Candidate.func [goContextType] [goErrorType, goErrorType]) = true :=
  ⟨rfl, by decide, rfl⟩

/-! ## Request-time model -/

/-- JSON documents, as handled by `encoding/json`. -/
inductive Json where
  | null
  | bool (b : Bool)
  | num (n : Int)
  | str (s : String)
  | arr (xs : List Json)
  | obj (fields : List (String × Json))
  deriving Repr

/-- Escaping of one character inside a JSON string literal. -/
def escapeChar (c : Char) : List Char :=
  if c = '"' then ['\\', '"']
  else if c = '\\' then ['\\', '\\']
  else [c]

/-- Escaping applied by the JSON encoder to string contents. -/
def escapeString (s : String) : String :=
  String.mk (s.data.map escapeChar).flatten

mutual
/-- The output of `json.Encoder` with `SetIndent("", "  ")` for a value
whose members start at indentation `ind`. -/
def encodeJson (ind : String) : Json → String
  | .null => "null"
  | .bool b => cond b "true" "false"
  | .num n => toString n
  | .str s => "\"" ++ escapeString s ++ "\""
  | .arr xs =>
    match xs with
    | [] => "[]"
    | _ => "[\n" ++ encodeItems (ind ++ "  ") xs ++ "\n" ++ ind ++ "]"
  | .obj fs =>
    match fs with
    | [] => "\x7b\x7d"
    | _ => "\x7b\n" ++ encodeFields (ind ++ "  ") fs ++ "\n" ++ ind ++ "\x7d"

/-- Elements of a JSON array, one per line, comma separated. -/
def encodeItems (ind : String) : List Json → String
  | [] => ""
  | [x] => ind ++ encodeJson ind x
  | x :: xs => ind ++ encodeJson ind x ++ ",\n" ++ encodeItems ind xs

/-- Fields of a JSON object, one per line, comma separated. -/
def encodeFields (ind : String) : List (String × Json) → String
  | [] => ""
  | [(k, v)] => ind ++ "\"" ++ escapeString k ++ "\": " ++ encodeJson ind v
  | (k, v) :: fs =>
    ind ++ "\"" ++ escapeString k ++ "\": " ++ encodeJson ind v ++ ",\n" ++
      encodeFields ind fs
end

/-- `Encoder.Encode` output: the indented document followed by a newline. -/
def encodePretty (j : Json) : String := encodeJson "" j ++ "\n"

/-- Go error values as seen by `handleError`: either a `HandlerErr`
(with its code, message and optional wrapped cause) or any other error
(with its display string and optional wrapped cause). -/
inductive GoError where
  | handlerErr (code : Nat) (message : String) (cause : Option GoError)
  | plain (display : String) (cause : Option GoError)
  deriving Repr

/-- `HandlerErr.Error()`: `fmt.Sprintf("%d: %s", code, message)`; other
errors display their own string. -/
def errorString : GoError → String
  | .handlerErr c m _ => toString c ++ ": " ++ m
  | .plain d _ => d

/-- `errors.As(err, &jErr)` with target type `HandlerErr`: the chain of
`Unwrap` causes is searched for the first `HandlerErr`, whose code and
message are returned. -/
def errorsAsHandlerErr : GoError → Option (Nat × String)
  | .handlerErr c m _ => some (c, m)
  | .plain _ none => none
  | .plain _ (some e) => errorsAsHandlerErr e

/-- `Error` constructor from the source. -/
def Error (code : Nat) (message : String) : GoError :=
  .handlerErr code message none

/-- `Errorf` from the source: the formatted message together with the
unwrapped cause of the format error. -/
def Errorf (code : Nat) (message : String) (cause : Option GoError) : GoError :=
  .handlerErr code message cause

/-- One operation a `ResponseFunc` callback can perform on the `Response`
carrier: set the status code field, set a header through `Header()` (which
aliases the writer's header map), or queue a cookie via `SetCookie`. -/
inductive RespOp where
  | setStatus (code : Nat)
  | setHeader (k v : String)
  | addCookie (c : String)
  deriving DecidableEq, Repr

/-- A `ResponseFunc` is modelled by the sequence of operations it performs
on the carrier it is handed. -/
abbrev ResponseFunc := List RespOp

/-- The `Response` carrier: status code and queued cookies (the header is
a reference into the writer and is modelled on the event trace). -/
structure Response where
  statusCode : Nat
  cookies : List String
  deriving DecidableEq, Repr

/-- Operations observed on the `http.ResponseWriter`: a `Header().Set`,
a `Header().Add` (used by `http.SetCookie`), a `WriteHeader`, or a body
`Write`. -/
inductive WEvent where
  | headerMut (k v : String)
  | headerAdd (k v : String)
  | writeHeader (code : Nat)
  | write (s : String)
  deriving DecidableEq, Repr

/-- Applying one callback operation: status and cookies update the
carrier, a header set goes straight to the writer's header map. -/
def applyOp (acc : Response × List WEvent) : RespOp → Response × List WEvent
  | .setStatus c => ({ acc.1 with statusCode := c }, acc.2)
  | .setHeader k v => (acc.1, acc.2 ++ [.headerMut k v])
  | .addCookie c => ({ acc.1 with cookies := acc.1.cookies ++ [c] }, acc.2)

/-- The `for _, o := range opts { o(&res) }` loop: callbacks applied in
order, accumulating carrier state and header events. -/
def applyCallbacks (fs : List ResponseFunc) (r : Response) :
    Response × List WEvent :=
  fs.foldl (fun acc f => List.foldl applyOp acc f) (r, [])

/-- Runtime values produced by the wrapped function: a JSON-marshallable
value, a value on which `json.Marshal` fails, an error-typed value (`none`
for a nil error), or a `[]ResponseFunc` value. -/
inductive GoVal where
  | json (j : Json)
  | unencodable
  | errVal (e : Option GoError)
  | opts (fs : List ResponseFunc)

/-- `json.Encoder.Encode` on an output value: succeeds with the pretty
document exactly for marshallable values. -/
def encodeVal : GoVal → Except Unit String
  | .json j => .ok (encodePretty j)
  | _ => .error ()

/-- The collaborator's state while replaying a writer trace. -/
structure CommitState where
  committed : Option Nat
  headers : List (String × String)
  body : String

/-- `Header().Set`: drop previous values for the key, append the new one. -/
def hset (hs : List (String × String)) (k v : String) :
    List (String × String) :=
  hs.filter (fun p => p.1 != k) ++ [(k, v)]

/-- `net/http` semantics of one writer operation: header changes take
effect only before the status line is committed, the first `WriteHeader`
commits the status (later ones are superfluous and ignored), a `Write`
before any `WriteHeader` implicitly commits 200, and writes append to the
body. -/
def applyEvent (st : CommitState) : WEvent → CommitState
  | .headerMut k v =>
    if st.committed.isSome then st else { st with headers := hset st.headers k v }
  | .headerAdd k v =>
    if st.committed.isSome then st else { st with headers := st.headers ++ [(k, v)] }
  | .writeHeader c =>
    if st.committed.isSome then st else { st with committed := some c }
  | .write s =>
    match st.committed with
    | some _ => { st with body := st.body ++ s }
    | none => { st with committed := some 200, body := st.body ++ s }

/-- The response as observed by the client. -/
structure HttpResponse where
  status : Nat
  headers : List (String × String)
  body : String
  deriving DecidableEq, Repr

/-- Replay a writer trace into the observed response. -/
def commit (events : List WEvent) : HttpResponse :=
  let st := events.foldl applyEvent ⟨none, [], ""⟩
  ⟨st.committed.getD 200, st.headers, st.body⟩

/-- `writeJSON` from the source: encode the output into a buffer (on
failure `http.Error` writes the fixed 500 plain-text response, and — as in
the source — execution continues without a return), run the callbacks,
set the content type, queue the cookies, write the status line, and copy
the buffer (`io.Copy` performs no `Write` for an empty buffer). -/
def writeJSON (code : Nat) (out : GoVal) (opts : List ResponseFunc) :
    List WEvent :=
  (match encodeVal out with
   | .error _ =>
     [.headerMut "Content-Type" "text/plain; charset=utf-8",
      .headerMut "X-Content-Type-Options" "nosniff",
      .writeHeader 500,
      .write "Internal error: Encoding response failed\n"]
   | .ok _ => []) ++
  (applyCallbacks opts ⟨code, []⟩).2 ++
  [.headerMut "content-type" "application/json; charset=utf-8"] ++
  ((applyCallbacks opts ⟨code, []⟩).1.cookies.map
    (fun c => WEvent.headerAdd "Set-Cookie" c)) ++
  [.writeHeader (applyCallbacks opts ⟨code, []⟩).1.statusCode] ++
  (match encodeVal out with
   | .ok s => if s = "" then [] else [.write s]
   | .error _ => [])

/-- The code/message pair chosen by `handleError`: a `HandlerErr` found in
the cause chain supplies its code and message, otherwise 500 with the
error's display string. -/
def errTranslation (err : GoError) : Nat × String :=
  match errorsAsHandlerErr err with
  | some p => p
  | none => (500, errorString err)

/-- `handleError` from the source: the translated code and message are
serialized as the `errResp` object through `writeJSON` with no callbacks. -/
def handleError (err : GoError) : List WEvent :=
  writeJSON (errTranslation err).1
    (.json (.obj [("error", .str (errTranslation err).2)])) []

/-- `responses[h.outN].Interface()` when a payload-role return is
declared; the `out` variable stays a nil interface (encoded as `null`)
otherwise. -/
def outValue (h : HandlerDesc) (responses : List GoVal) : GoVal :=
  if h.outN ≥ 0 then responses.getD h.outN.toNat (.json .null) else .json .null

/-- `responses[h.errN].Interface().(error)` guarded by the `ok` type
assertion: only a declared, non-nil error value is extracted. -/
def errValue (h : HandlerDesc) (responses : List GoVal) : Option GoError :=
  if h.errN ≥ 0 then
    match responses.getD h.errN.toNat (.json .null) with
    | .errVal (some e) => some e
    | _ => none
  else none

/-- `responses[h.optsN].Interface().([]ResponseFunc)` when declared. -/
def optsValue (h : HandlerDesc) (responses : List GoVal) : List ResponseFunc :=
  if h.optsN ≥ 0 then
    match responses.getD h.optsN.toNat (.json .null) with
    | .opts fs => fs
    | _ => []
  else []

/-- The result of serving one request: the writer trace, whether the
wrapped function was invoked, and whether the request body was closed. -/
structure ServeResult where
  events : List WEvent
  fnCalled : Bool
  bodyClosed : Bool

/-- One inbound request, reduced to what the dispatcher consumes: the
outcome of decoding its body into the declared payload type. -/
structure Req where
  decodeResult : Except String GoVal

/-- Whether decoding the request body succeeded. -/
def Req.decodeOk (r : Req) : Bool :=
  match r.decodeResult with
  | .ok _ => true
  | .error _ => false

/-- The decoded payload argument handed to the wrapped function (none when
the handler takes no payload or decoding failed). -/
def payloadArg (h : HandlerDesc) (r : Req) : Option GoVal :=
  if h.takesPayload then
    match r.decodeResult with
    | .ok pl => some pl
    | .error _ => none
  else none

/-- The tail of `handler.ServeHTTP` after the arguments are built: call
the wrapped function, short-circuit to a bare 200 when neither a
payload-role nor an error-role return is declared, otherwise translate a
non-nil error or serialize the output. -/
def serveCall (h : HandlerDesc) (fn : Option GoVal → List GoVal)
    (pl : Option GoVal) (closed : Bool) : ServeResult :=
  if h.outN < 0 ∧ h.errN < 0 then
    { events := [.writeHeader 200], fnCalled := true, bodyClosed := closed }
  else
    match errValue h (fn pl) with
    | some e => { events := handleError e, fnCalled := true, bodyClosed := closed }
    | none =>
      { events := writeJSON 200 (outValue h (fn pl)) (optsValue h (fn pl)),
        fnCalled := true, bodyClosed := closed }

/-- `handler.ServeHTTP` from the source: when a payload is declared the
body is decoded (and closed on both branches); a decode failure is
translated through `Errorf(400, "Bad request: %w", err)` without invoking
the wrapped function. -/
def ServeHTTP (h : HandlerDesc) (fn : Option GoVal → List GoVal) (r : Req) :
    ServeResult :=
  if h.takesPayload then
    match r.decodeResult with
    | .error e =>
      { events := handleError (Errorf 400 ("Bad request: " ++ e) (some (.plain e none))),
        fnCalled := false, bodyClosed := true }
    | .ok pl => serveCall h fn (some pl) true
  else
    serveCall h fn none false

/-- Whether the tail of the dispatcher performs a JSON-encode failure:
only the success serialization path encodes the payload-role value, so a
failure occurs exactly when that path is reached with an unmarshallable
value (the bare-200 path encodes nothing and the error path encodes the
always-marshallable `errResp` object). -/
def serveCallEncodeFails (h : HandlerDesc) (fn : Option GoVal → List GoVal)
    (pl : Option GoVal) : Bool :=
  if h.outN < 0 ∧ h.errN < 0 then false
  else
    match errValue h (fn pl) with
    | some _ => false
    | none =>
      match encodeVal (outValue h (fn pl)) with
      | .ok _ => false
      | .error _ => true

/-- Whether handling one request performs a JSON-encode failure (a decode
failure encodes only the `errResp` object, which always marshals). -/
def encodeFails (h : HandlerDesc) (fn : Option GoVal → List GoVal)
    (r : Req) : Bool :=
  if h.takesPayload then
    match r.decodeResult with
    | .error _ => false
    | .ok pl => serveCallEncodeFails h fn (some pl)
  else serveCallEncodeFails h fn none

/-! ## Trace analysis -/

/-- Whether a writer event is a body write. -/
def isWriteEvent : WEvent → Bool
  | .write _ => true
  | _ => false

/-- Whether a writer event is a `WriteHeader`. -/
def isWriteHeaderEvent : WEvent → Bool
  | .writeHeader _ => true
  | _ => false

/-- Whether a writer event is a header mutation (`Set` or `Add`). -/
def isHeaderEvent : WEvent → Bool
  | .headerMut _ _ => true
  | .headerAdd _ _ => true
  | _ => false

/-- Whether a writer event is a header `Add`. -/
def isHeaderAddEvent : WEvent → Bool
  | .headerAdd _ _ => true
  | _ => false

/-- A well-formed single-commit trace: header mutations only, then exactly
one `WriteHeader`, then at most one body `Write`. -/
def singleCommitTrace : List WEvent → Bool
  | [] => false
  | .writeHeader _ :: rest => rest.all isWriteEvent && decide (rest.length ≤ 1)
  | e :: rest => isHeaderEvent e && singleCommitTrace rest

theorem encodePretty_ne_nil (j : Json) : encodePretty j ≠ "" := by
  intro h
  have h2 := congrArg String.length h
  simp [encodePretty, String.length_append] at h2
  exact absurd h2.2 (by decide)

theorem foldl_applyOp_all_header (ops : List RespOp)
    (acc : Response × List WEvent) (h : acc.2.all isHeaderEvent = true) :
    ((List.foldl applyOp acc ops).2).all isHeaderEvent = true := by
  induction ops generalizing acc with
  | nil => exact h
  | cons op ops ih =>
    refine ih _ ?_
    cases op <;> simp [applyOp, List.all_append, h, isHeaderEvent]

theorem applyCallbacks_all_header (fs : List ResponseFunc) (r : Response) :
    ((applyCallbacks fs r).2).all isHeaderEvent = true := by
  have key : ∀ (gs : List ResponseFunc) (start : Response × List WEvent),
      start.2.all isHeaderEvent = true →
      ((gs.foldl (fun acc f => List.foldl applyOp acc f) start).2).all
        isHeaderEvent = true := by
    intro gs
    induction gs with
    | nil => intro start h; exact h
    | cons f gs ih =>
      intro start h
      exact ih _ (foldl_applyOp_all_header f start h)
  exact key fs (r, []) rfl

theorem cookieEvents_all_headerAdd (cs : List String) :
    (cs.map (fun c => WEvent.headerAdd "Set-Cookie" c)).all
      isHeaderAddEvent = true := by
  induction cs with
  | nil => rfl
  | cons c cs ih => simp [isHeaderAddEvent, ih]

theorem all_header_of_all_headerAdd (evs : List WEvent)
    (h : evs.all isHeaderAddEvent = true) : evs.all isHeaderEvent = true := by
  induction evs with
  | nil => rfl
  | cons e evs ih =>
    rw [List.all_cons, Bool.and_eq_true] at h
    obtain ⟨h1, h2⟩ := h
    rw [List.all_cons, Bool.and_eq_true]
    refine ⟨?_, ih h2⟩
    cases e <;> first | rfl | simp [isHeaderAddEvent] at h1

theorem all_notWrite_of_all_header (evs : List WEvent)
    (h : evs.all isHeaderEvent = true) :
    evs.all (fun e => !isWriteEvent e) = true := by
  induction evs with
  | nil => rfl
  | cons e evs ih =>
    rw [List.all_cons, Bool.and_eq_true] at h
    obtain ⟨h1, h2⟩ := h
    rw [List.all_cons, Bool.and_eq_true]
    refine ⟨?_, ih h2⟩
    cases e <;> simp [isHeaderEvent] at h1 <;> rfl

theorem countP_writeHeader_eq_zero (evs : List WEvent)
    (h : evs.all isHeaderEvent = true) :
    evs.countP isWriteHeaderEvent = 0 := by
  induction evs with
  | nil => rfl
  | cons e evs ih =>
    rw [List.all_cons, Bool.and_eq_true] at h
    obtain ⟨h1, h2⟩ := h
    rw [List.countP_cons]
    cases e <;> simp [isHeaderEvent] at h1 <;>
      simp [isWriteHeaderEvent, ih h2]

theorem applyEvent_header_preserve (st : CommitState) (e : WEvent)
    (he : isHeaderEvent e = true) :
    (applyEvent st e).committed = st.committed ∧
    (applyEvent st e).body = st.body := by
  cases e <;> simp [isHeaderEvent] at he <;>
    constructor <;> simp only [applyEvent] <;> split <;> rfl

theorem foldl_applyEvent_header (evs : List WEvent) (st : CommitState)
    (h : evs.all isHeaderEvent = true) :
    (evs.foldl applyEvent st).committed = st.committed ∧
    (evs.foldl applyEvent st).body = st.body := by
  induction evs generalizing st with
  | nil => exact ⟨rfl, rfl⟩
  | cons e evs ih =>
    simp only [List.all_cons, Bool.and_eq_true] at h
    have step := applyEvent_header_preserve st e h.1
    have rest := ih (applyEvent st e) h.2
    exact ⟨step.1 ▸ rest.1, step.2 ▸ rest.2⟩

theorem foldl_applyEvent_committed (evs : List WEvent) (st : CommitState)
    (hc : st.committed.isSome = true)
    (h : evs.all (fun e => !isWriteEvent e) = true) :
    evs.foldl applyEvent st = st := by
  induction evs generalizing st with
  | nil => rfl
  | cons e evs ih =>
    simp only [List.all_cons, Bool.and_eq_true] at h
    have step : applyEvent st e = st := by
      cases e <;> simp [isWriteEvent] at h ⊢ <;> simp [applyEvent, hc]
    rw [List.foldl_cons, step]
    exact ih st hc h.2

theorem foldl_applyEvent_headerAdd (evs : List WEvent) (st : CommitState)
    (hc : st.committed = none) (h : evs.all isHeaderAddEvent = true) :
    ∃ t, evs.foldl applyEvent st =
      ⟨none, st.headers ++ t, st.body⟩ := by
  induction evs generalizing st with
  | nil => exact ⟨[], by cases st; simp_all⟩
  | cons e evs ih =>
    rw [List.all_cons, Bool.and_eq_true] at h
    obtain ⟨h1, h2⟩ := h
    cases e <;> simp [isHeaderAddEvent] at h1
    case headerAdd k v =>
      have step : applyEvent st (.headerAdd k v) =
          ⟨none, st.headers ++ [(k, v)], st.body⟩ := by
        cases st; simp_all [applyEvent]
      obtain ⟨t, ht⟩ := ih ⟨none, st.headers ++ [(k, v)], st.body⟩ rfl h2
      refine ⟨(k, v) :: t, ?_⟩
      rw [List.foldl_cons, step, ht]
      simp

theorem singleCommitTrace_append_header (evs rest : List WEvent)
    (h : evs.all isHeaderEvent = true) :
    singleCommitTrace (evs ++ rest) = singleCommitTrace rest := by
  induction evs with
  | nil => rfl
  | cons e evs ih =>
    rw [List.all_cons, Bool.and_eq_true] at h
    obtain ⟨h1, h2⟩ := h
    cases e <;> simp [isHeaderEvent] at h1 <;>
      simp [singleCommitTrace, isHeaderEvent, List.cons_append, ih h2]

/-! ## Evaluation of `writeJSON`, `handleError` and `commit` -/

theorem writeJSON_json_events (code : Nat) (j : Json) (fs : List ResponseFunc) :
    writeJSON code (.json j) fs =
      (applyCallbacks fs ⟨code, []⟩).2 ++
      ([WEvent.headerMut "content-type" "application/json; charset=utf-8"] ++
       (((applyCallbacks fs ⟨code, []⟩).1.cookies.map
          (fun c => WEvent.headerAdd "Set-Cookie" c)) ++
        ([WEvent.writeHeader (applyCallbacks fs ⟨code, []⟩).1.statusCode] ++
         [WEvent.write (encodePretty j)]))) := by
  simp only [writeJSON, encodeVal]
  rw [if_neg (encodePretty_ne_nil j)]
  simp [List.append_assoc]

theorem commit_writeJSON_json_nil (code : Nat) (j : Json) :
    commit (writeJSON code (.json j) []) =
      ⟨code, [("content-type", "application/json; charset=utf-8")],
       encodePretty j⟩ := by
  rw [writeJSON_json_events]
  simp [applyCallbacks, commit, applyEvent, hset]

theorem commit_writeJSON_json (code : Nat) (j : Json) (fs : List ResponseFunc) :
    (commit (writeJSON code (.json j) fs)).status =
      (applyCallbacks fs ⟨code, []⟩).1.statusCode ∧
    (commit (writeJSON code (.json j) fs)).body = encodePretty j ∧
    ("content-type", "application/json; charset=utf-8") ∈
      (commit (writeJSON code (.json j) fs)).headers := by
  rw [writeJSON_json_events]
  unfold commit
  rw [List.foldl_append]
  have hcb := foldl_applyEvent_header (applyCallbacks fs ⟨code, []⟩).2
    ⟨none, [], ""⟩ (applyCallbacks_all_header fs ⟨code, []⟩)
  generalize hst1 : List.foldl applyEvent ⟨none, [], ""⟩
    (applyCallbacks fs ⟨code, []⟩).2 = st1 at hcb
  obtain ⟨hc1, hb1⟩ := hcb
  have hst1eq : st1 = ⟨none, st1.headers, ""⟩ := by
    cases st1; simp_all
  rw [hst1eq]
  rw [List.singleton_append, List.foldl_cons]
  have hmt : applyEvent ⟨none, st1.headers, ""⟩
      (.headerMut "content-type" "application/json; charset=utf-8") =
      ⟨none, hset st1.headers "content-type" "application/json; charset=utf-8",
       ""⟩ := by
    simp [applyEvent]
  rw [hmt, List.foldl_append]
  obtain ⟨t, ht⟩ := foldl_applyEvent_headerAdd
    ((applyCallbacks fs ⟨code, []⟩).1.cookies.map
      (fun c => WEvent.headerAdd "Set-Cookie" c))
    ⟨none, hset st1.headers "content-type" "application/json; charset=utf-8", ""⟩
    rfl (cookieEvents_all_headerAdd (applyCallbacks fs ⟨code, []⟩).1.cookies)
  rw [ht]
  simp only [List.singleton_append, List.foldl_cons, List.foldl_nil]
  have hwh : applyEvent
      ⟨none, hset st1.headers "content-type" "application/json; charset=utf-8"
         ++ t, ""⟩
      (.writeHeader (applyCallbacks fs ⟨code, []⟩).1.statusCode) =
      ⟨some (applyCallbacks fs ⟨code, []⟩).1.statusCode,
       hset st1.headers "content-type" "application/json; charset=utf-8" ++ t,
       ""⟩ := by
    simp [applyEvent]
  rw [hwh]
  refine ⟨rfl, rfl, ?_⟩
  simp [applyEvent, hset]

theorem writeJSON_encfail_events (code : Nat) (out : GoVal)
    (fs : List ResponseFunc) (henc : encodeVal out = .error ()) :
    writeJSON code out fs =
      [WEvent.headerMut "Content-Type" "text/plain; charset=utf-8",
       WEvent.headerMut "X-Content-Type-Options" "nosniff",
       WEvent.writeHeader 500,
       WEvent.write "Internal error: Encoding response failed\n"] ++
      ((applyCallbacks fs ⟨code, []⟩).2 ++
       ([WEvent.headerMut "content-type" "application/json; charset=utf-8"] ++
        (((applyCallbacks fs ⟨code, []⟩).1.cookies.map
           (fun c => WEvent.headerAdd "Set-Cookie" c)) ++
         [WEvent.writeHeader (applyCallbacks fs ⟨code, []⟩).1.statusCode]))) := by
  simp only [writeJSON, henc]
  simp [List.append_assoc]

theorem commit_writeJSON_encfail (code : Nat) (out : GoVal)
    (fs : List ResponseFunc) (henc : encodeVal out = .error ()) :
    commit (writeJSON code out fs) =
      ⟨500, [("Content-Type", "text/plain; charset=utf-8"),
             ("X-Content-Type-Options", "nosniff")],
       "Internal error: Encoding response failed\n"⟩ := by
  rw [writeJSON_encfail_events code out fs henc]
  unfold commit
  rw [List.foldl_append]
  have hpre : List.foldl applyEvent ⟨none, [], ""⟩
      [WEvent.headerMut "Content-Type" "text/plain; charset=utf-8",
       WEvent.headerMut "X-Content-Type-Options" "nosniff",
       WEvent.writeHeader 500,
       WEvent.write "Internal error: Encoding response failed\n"] =
      ⟨some 500, [("Content-Type", "text/plain; charset=utf-8"),
                  ("X-Content-Type-Options", "nosniff")],
       "Internal error: Encoding response failed\n"⟩ := by
    simp [applyEvent, hset]
  have hcb := all_notWrite_of_all_header _ (applyCallbacks_all_header fs ⟨code, []⟩)
  have hck := all_notWrite_of_all_header _ (all_header_of_all_headerAdd _
    (cookieEvents_all_headerAdd (applyCallbacks fs ⟨code, []⟩).1.cookies))
  have hall : ((applyCallbacks fs ⟨code, []⟩).2 ++
      ([WEvent.headerMut "content-type" "application/json; charset=utf-8"] ++
       (((applyCallbacks fs ⟨code, []⟩).1.cookies.map
          (fun c => WEvent.headerAdd "Set-Cookie" c)) ++
        [WEvent.writeHeader (applyCallbacks fs ⟨code, []⟩).1.statusCode]))).all
        (fun e => !isWriteEvent e) = true := by
    simp only [List.all_append, Bool.and_eq_true]
    refine ⟨hcb, ?_, hck, ?_⟩ <;> rfl
  have htail := foldl_applyEvent_committed _
    (⟨some 500, [("Content-Type", "text/plain; charset=utf-8"),
                 ("X-Content-Type-Options", "nosniff")],
      "Internal error: Encoding response failed\n"⟩ : CommitState) rfl hall
  rw [hpre, htail]
  rfl

theorem singleCommitTrace_writeJSON_json (code : Nat) (j : Json)
    (fs : List ResponseFunc) :
    singleCommitTrace (writeJSON code (.json j) fs) = true := by
  rw [writeJSON_json_events]
  rw [singleCommitTrace_append_header _ _ (applyCallbacks_all_header fs ⟨code, []⟩)]
  rw [singleCommitTrace_append_header _ _ (by rfl)]
  rw [singleCommitTrace_append_header _ _ (all_header_of_all_headerAdd _
    (cookieEvents_all_headerAdd (applyCallbacks fs ⟨code, []⟩).1.cookies))]
  simp [singleCommitTrace, isWriteEvent]

theorem singleCommitTrace_handleError (e : GoError) :
    singleCommitTrace (handleError e) = true := by
  unfold handleError
  exact singleCommitTrace_writeJSON_json _ _ _

theorem commit_handleError (e : GoError) :
    commit (handleError e) =
      ⟨(errTranslation e).1,
       [("content-type", "application/json; charset=utf-8")],
       encodePretty (.obj [("error", .str (errTranslation e).2)])⟩ := by
  unfold handleError
  exact commit_writeJSON_json_nil _ _

/-! ## Per-request theorems -/

theorem serveCall_bodyClosed (h : HandlerDesc) (fn : Option GoVal → List GoVal)
    (pl : Option GoVal) (c : Bool) : (serveCall h fn pl c).bodyClosed = c := by
  unfold serveCall
  split
  · rfl
  · split <;> rfl

theorem payloadArg_ok (h : HandlerDesc) (r : Req) (pl : GoVal)
    (htp : h.takesPayload = true) (hd : r.decodeResult = .ok pl) :
    payloadArg h r = some pl := by
  simp [payloadArg, htp, hd]

/-- C5: for a handler taking a payload, a decode failure yields a 400
response embedding the failure message, the wrapped function is never
invoked, and the request body is closed whatever the decode outcome. -/
theorem c5_decode_failure_400 (h : HandlerDesc)
    (fn : Option GoVal → List GoVal) (r : Req)
    (htp : h.takesPayload = true) :
    (ServeHTTP h fn r).bodyClosed = true ∧
    (∀ e, r.decodeResult = .error e →
      (ServeHTTP h fn r).fnCalled = false ∧
      commit (ServeHTTP h fn r).events =
        ⟨400, [("content-type", "application/json; charset=utf-8")],
         encodePretty (.obj [("error", .str ("Bad request: " ++ e))])⟩) := by
  constructor
  · simp only [ServeHTTP, htp, if_true]
    cases hd : r.decodeResult with
    | error e => rfl
    | ok pl => exact serveCall_bodyClosed h fn (some pl) true
  · intro e he
    simp only [ServeHTTP, htp, if_true, he]
    refine ⟨trivial, ?_⟩
    rw [commit_handleError]
    rfl

/-- C6: a non-null error returned by the wrapped function is translated
using the code and message of the first `HandlerErr` in its cause chain
when one exists, and to status 500 with the error's own display string
otherwise; in both cases the body is the object with the single field
`error` holding the message. -/
theorem c6_error_translation (e : GoError) :
    (∀ c m, errorsAsHandlerErr e = some (c, m) →
      commit (handleError e) =
        ⟨c, [("content-type", "application/json; charset=utf-8")],
         encodePretty (.obj [("error", .str m)])⟩) ∧
    (errorsAsHandlerErr e = none →
      commit (handleError e) =
        ⟨500, [("content-type", "application/json; charset=utf-8")],
         encodePretty (.obj [("error", .str (errorString e))])⟩) := by
  constructor
  · intro c m hcm
    rw [commit_handleError]
    simp [errTranslation, hcm]
  · intro hnone
    rw [commit_handleError]
    simp [errTranslation, hnone]

/-- Witness for C6 at the spec's example: a wrapped `HandlerErr` carrying
code 502 and message "Bad gateway" produces status 502 and the body
`⦃"error": "Bad gateway"⦄`. -/
theorem c6_error_translation_witness :
    errorsAsHandlerErr
      (.plain "wrapped" (some (.handlerErr 502 "Bad gateway" none))) =
      some (502, "Bad gateway") ∧
    commit (handleError
      (.plain "wrapped" (some (.handlerErr 502 "Bad gateway" none)))) =
      ⟨502, [("content-type", "application/json; charset=utf-8")],
       encodePretty (.obj [("error", .str "Bad gateway")])⟩ :=
  ⟨rfl, (c6_error_translation _).1 502 "Bad gateway" rfl⟩

/-- C3: whenever encoding the successful payload-role value fails, the
observed response is the fixed plain-text 500 produced by `http.Error`,
not the JSON error-translation output. -/
theorem c3_encode_failure_fixed_500 (h : HandlerDesc)
    (fn : Option GoVal → List GoVal) (r : Req)
    (hdec : h.takesPayload = true → r.decodeOk = true)
    (herr : errValue h (fn (payloadArg h r)) = none)
    (henc : encodeVal (outValue h (fn (payloadArg h r))) = .error ()) :
    commit (ServeHTTP h fn r).events =
      ⟨500, [("Content-Type", "text/plain; charset=utf-8"),
             ("X-Content-Type-Options", "nosniff")],
       "Internal error: Encoding response failed\n"⟩ := by
  have hnb : ¬(h.outN < 0 ∧ h.errN < 0) := by
    intro hlt
    unfold outValue at henc
    rw [if_neg (by omega)] at henc
    simp [encodeVal] at henc
  by_cases htp : h.takesPayload = true
  · cases hd : r.decodeResult with
    | error e =>
      have hok := hdec htp
      simp [Req.decodeOk, hd] at hok
    | ok pl =>
      rw [payloadArg_ok h r pl htp hd] at herr henc
      simp only [ServeHTTP, htp, if_true, hd]
      unfold serveCall
      rw [if_neg hnb, herr]
      exact commit_writeJSON_encfail _ _ _ henc
  · have htp2 : h.takesPayload = false := by simpa using htp
    have hpa : payloadArg h r = none := by simp [payloadArg, htp2]
    rw [hpa] at herr henc
    simp only [ServeHTTP, htp2, Bool.false_eq_true, if_false]
    unfold serveCall
    rw [if_neg hnb, herr]
    exact commit_writeJSON_encfail _ _ _ henc

/-- Witness for C3: a handler shaped like `func(ctx) (T, error)` whose
payload-role value cannot be marshalled yields the fixed 500 plain-text
response. -/
theorem c3_encode_failure_witness :
    commit (ServeHTTP ⟨false, none, 1, 0, -1⟩
      (fun _ => [GoVal.unencodable, GoVal.errVal none])
      ⟨Except.ok (GoVal.json Json.null)⟩).events =
      ⟨500, [("Content-Type", "text/plain; charset=utf-8"),
             ("X-Content-Type-Options", "nosniff")],
       "Internal error: Encoding response failed\n"⟩ :=
  c3_encode_failure_fixed_500 _ _ _ (fun hh => nomatch hh) rfl rfl

/-- Witness for C5: a payload-taking handler together with a request whose
body fails to decode yields status 400 with the embedded message, a closed
body, and no invocation of the wrapped function. -/
theorem c5_decode_failure_witness :
    (ServeHTTP ⟨true, some goStringType, -1, 0, -1⟩
      (fun _ => [GoVal.json (.str "x")])
      ⟨Except.error "unexpected EOF"⟩).bodyClosed = true ∧
    (ServeHTTP ⟨true, some goStringType, -1, 0, -1⟩
      (fun _ => [GoVal.json (.str "x")])
      ⟨Except.error "unexpected EOF"⟩).fnCalled = false ∧
    commit (ServeHTTP ⟨true, some goStringType, -1, 0, -1⟩
      (fun _ => [GoVal.json (.str "x")])
      ⟨Except.error "unexpected EOF"⟩).events =
      ⟨400, [("content-type", "application/json; charset=utf-8")],
       encodePretty (.obj [("error", .str ("Bad request: " ++ "unexpected EOF"))])⟩ := by
  have hmain := c5_decode_failure_400 ⟨true, some goStringType, -1, 0, -1⟩
    (fun _ => [GoVal.json (.str "x")]) ⟨Except.error "unexpected EOF"⟩ rfl
  exact ⟨hmain.1, (hmain.2 "unexpected EOF" rfl).1, (hmain.2 "unexpected EOF" rfl).2⟩

/-- C7: on a successful invocation with a declared payload-role return and
no error, the body is the 2-space-indented pretty printing of the
payload-role value, the JSON-with-UTF-8 content type is set, and the
committed status code is the result of applying the declared callbacks in
order to a fresh carrier starting at 200. -/
theorem c7_success_payload_response (h : HandlerDesc)
    (fn : Option GoVal → List GoVal) (r : Req)
    (hdec : h.takesPayload = true → r.decodeOk = true)
    (hout : h.outN ≥ 0) (j : Json)
    (hj : outValue h (fn (payloadArg h r)) = .json j)
    (herr : errValue h (fn (payloadArg h r)) = none) :
    (commit (ServeHTTP h fn r).events).status =
      (applyCallbacks (optsValue h (fn (payloadArg h r)))
        ⟨200, []⟩).1.statusCode ∧
    (commit (ServeHTTP h fn r).events).body = encodePretty j ∧
    ("content-type", "application/json; charset=utf-8") ∈
      (commit (ServeHTTP h fn r).events).headers := by
  have hnb : ¬(h.outN < 0 ∧ h.errN < 0) := by
    intro hlt
    omega
  by_cases htp : h.takesPayload = true
  · cases hd : r.decodeResult with
    | error e =>
      have hok := hdec htp
      simp [Req.decodeOk, hd] at hok
    | ok pl =>
      rw [payloadArg_ok h r pl htp hd] at herr hj ⊢
      simp only [ServeHTTP, htp, if_true, hd]
      unfold serveCall
      rw [if_neg hnb, herr, hj]
      exact commit_writeJSON_json 200 j _
  · have htp2 : h.takesPayload = false := by simpa using htp
    have hpa : payloadArg h r = none := by simp [payloadArg, htp2]
    rw [hpa] at herr hj ⊢
    simp only [ServeHTTP, htp2, Bool.false_eq_true, if_false]
    unfold serveCall
    rw [if_neg hnb, herr, hj]
    exact commit_writeJSON_json 200 j _

/-- Witness for C7 at the spec's example: a handler shaped like
`func(ctx) (string, ⟬⟭ResponseFunc)` returning "ok" and a callback that
sets the status to 201 commits status 201 while the body still encodes
"ok". -/
theorem c7_callback_201_witness :
    (commit (ServeHTTP ⟨false, none, -1, 0, 1⟩
      (fun _ => [GoVal.json (.str "ok"),
                 GoVal.opts [[RespOp.setStatus 201]]])
      ⟨Except.ok (GoVal.json Json.null)⟩).events).status = 201 ∧
    (commit (ServeHTTP ⟨false, none, -1, 0, 1⟩
      (fun _ => [GoVal.json (.str "ok"),
                 GoVal.opts [[RespOp.setStatus 201]]])
      ⟨Except.ok (GoVal.json Json.null)⟩).events).body =
      encodePretty (.str "ok") ∧
    ("content-type", "application/json; charset=utf-8") ∈
      (commit (ServeHTTP ⟨false, none, -1, 0, 1⟩
        (fun _ => [GoVal.json (.str "ok"),
                   GoVal.opts [[RespOp.setStatus 201]]])
        ⟨Except.ok (GoVal.json Json.null)⟩).events).headers := by
  have hmain := c7_success_payload_response ⟨false, none, -1, 0, 1⟩
    (fun _ => [GoVal.json (.str "ok"), GoVal.opts [[RespOp.setStatus 201]]])
    ⟨Except.ok (GoVal.json Json.null)⟩
    (fun hh => nomatch hh) (by decide) (.str "ok") rfl rfl
  exact ⟨hmain.1.trans rfl, hmain.2.1, hmain.2.2⟩

/-- C4 counterexample: for a handler built from `func(ctx)` (no usable
returns), serving a request performs exactly one `WriteHeader` and zero
`Write` calls, refuting the claim that `Write` is invoked exactly once on
every request. -/
theorem c4_counterexample_write_never_called :
    parseHandler (Candidate.func [goContextType] []) =
      Except.ok ⟨false, none, -1, -1, -1⟩ ∧
    (ServeHTTP ⟨false, none, -1, -1, -1⟩ (fun _ => [])
      ⟨Except.ok (GoVal.json Json.null)⟩).events =
      [WEvent.writeHeader 200] ∧
    (ServeHTTP ⟨false, none, -1, -1, -1⟩ (fun _ => [])
      ⟨Except.ok (GoVal.json Json.null)⟩).events.countP isWriteEvent = 0 :=
  ⟨rfl, rfl, rfl⟩

theorem serveCall_single_commit (h : HandlerDesc)
    (fn : Option GoVal → List GoVal) (pl : Option GoVal) (c : Bool)
    (hok : serveCallEncodeFails h fn pl = false) :
    singleCommitTrace (serveCall h fn pl c).events = true := by
  unfold serveCallEncodeFails at hok
  unfold serveCall
  by_cases hb : h.outN < 0 ∧ h.errN < 0
  · rw [if_pos hb]
    rfl
  · rw [if_neg hb] at hok ⊢
    cases he : errValue h (fn pl) with
    | some e =>
      simp only [he]
      exact singleCommitTrace_handleError e
    | none =>
      rw [he] at hok
      simp only [he]
      cases henc : encodeVal (outValue h (fn pl)) with
      | error u => rw [henc] at hok; exact absurd hok (by simp)
      | ok s =>
        cases ho : outValue h (fn pl) with
        | json j => exact singleCommitTrace_writeJSON_json _ _ _
        | unencodable =>
          rw [ho] at henc
          simp [encodeVal] at henc
        | errVal e2 =>
          rw [ho] at henc
          simp [encodeVal] at henc
        | opts gs =>
          rw [ho] at henc
          simp [encodeVal] at henc

theorem serveCall_encfail_shape (h : HandlerDesc)
    (fn : Option GoVal → List GoVal) (pl : Option GoVal) (c : Bool)
    (hfail : serveCallEncodeFails h fn pl = true) :
    ∃ tail, (serveCall h fn pl c).events =
      [WEvent.headerMut "Content-Type" "text/plain; charset=utf-8",
       WEvent.headerMut "X-Content-Type-Options" "nosniff",
       WEvent.writeHeader 500,
       WEvent.write "Internal error: Encoding response failed\n"] ++ tail ∧
      WEvent.headerMut "content-type" "application/json; charset=utf-8" ∈ tail ∧
      tail.countP isWriteHeaderEvent = 1 ∧
      commit (serveCall h fn pl c).events =
        ⟨500, [("Content-Type", "text/plain; charset=utf-8"),
               ("X-Content-Type-Options", "nosniff")],
         "Internal error: Encoding response failed\n"⟩ := by
  unfold serveCallEncodeFails at hfail
  unfold serveCall
  by_cases hb : h.outN < 0 ∧ h.errN < 0
  · rw [if_pos hb] at hfail
    exact absurd hfail (by simp)
  · rw [if_neg hb] at hfail ⊢
    cases he : errValue h (fn pl) with
    | some e =>
      rw [he] at hfail
      exact absurd hfail (by simp)
    | none =>
      rw [he] at hfail
      simp only [he]
      cases henc : encodeVal (outValue h (fn pl)) with
      | ok s => rw [henc] at hfail; exact absurd hfail (by simp)
      | error u =>
        cases u
        refine ⟨(applyCallbacks (optsValue h (fn pl)) ⟨200, []⟩).2 ++
          ([WEvent.headerMut "content-type" "application/json; charset=utf-8"] ++
           (((applyCallbacks (optsValue h (fn pl)) ⟨200, []⟩).1.cookies.map
              (fun ck => WEvent.headerAdd "Set-Cookie" ck)) ++
            [WEvent.writeHeader
              (applyCallbacks (optsValue h (fn pl)) ⟨200, []⟩).1.statusCode])),
          ?_, ?_, ?_, ?_⟩
        · exact writeJSON_encfail_events 200 _ _ henc
        · simp
        · have hcb := countP_writeHeader_eq_zero _
            (applyCallbacks_all_header (optsValue h (fn pl)) ⟨200, []⟩)
          have hck := countP_writeHeader_eq_zero _
            (all_header_of_all_headerAdd _ (cookieEvents_all_headerAdd
              (applyCallbacks (optsValue h (fn pl)) ⟨200, []⟩).1.cookies))
          simp [List.countP_append, List.countP_cons, hcb, hck,
            isWriteHeaderEvent]
        · exact commit_writeJSON_encfail 200 _ _ henc

/-- C4 amended: on every request whose handling performs no JSON-encode
failure, the writer trace consists of header mutations, then exactly one
`WriteHeader`, then at most one `Write` — in particular no header is
mutated after the status line is committed.  On a request whose handling
does hit an encode failure, `http.Error` first commits the fixed 500
response, after which the fall-through in `writeJSON` attempts a further
header mutation and a second `WriteHeader`; the collaborator ignores
them, so the committed response remains the fixed 500. -/
theorem c4_single_commit_per_request (h : HandlerDesc)
    (fn : Option GoVal → List GoVal) (r : Req) :
    (encodeFails h fn r = false →
      singleCommitTrace (ServeHTTP h fn r).events = true) ∧
    (encodeFails h fn r = true →
      ∃ tail, (ServeHTTP h fn r).events =
        [WEvent.headerMut "Content-Type" "text/plain; charset=utf-8",
         WEvent.headerMut "X-Content-Type-Options" "nosniff",
         WEvent.writeHeader 500,
         WEvent.write "Internal error: Encoding response failed\n"] ++ tail ∧
        WEvent.headerMut "content-type" "application/json; charset=utf-8" ∈ tail ∧
        tail.countP isWriteHeaderEvent = 1 ∧
        commit (ServeHTTP h fn r).events =
          ⟨500, [("Content-Type", "text/plain; charset=utf-8"),
                 ("X-Content-Type-Options", "nosniff")],
           "Internal error: Encoding response failed\n"⟩) := by
  by_cases htp : h.takesPayload = true
  · cases hd : r.decodeResult with
    | error e =>
      constructor
      · intro _
        simp only [ServeHTTP, htp, if_true, hd]
        exact singleCommitTrace_handleError _
      · intro hfail
        simp [encodeFails, htp, hd] at hfail
    | ok pl =>
      have hred : encodeFails h fn r = serveCallEncodeFails h fn (some pl) := by
        simp [encodeFails, htp, hd]
      constructor
      · intro hok
        rw [hred] at hok
        simp only [ServeHTTP, htp, if_true, hd]
        exact serveCall_single_commit h fn (some pl) true hok
      · intro hfail
        rw [hred] at hfail
        simp only [ServeHTTP, htp, if_true, hd]
        exact serveCall_encfail_shape h fn (some pl) true hfail
  · have htp2 : h.takesPayload = false := by simpa using htp
    have hred : encodeFails h fn r = serveCallEncodeFails h fn none := by
      simp [encodeFails, htp2]
    constructor
    · intro hok
      rw [hred] at hok
      simp only [ServeHTTP, htp2, Bool.false_eq_true, if_false]
      exact serveCall_single_commit h fn none false hok
    · intro hfail
      rw [hred] at hfail
      simp only [ServeHTTP, htp2, Bool.false_eq_true, if_false]
      exact serveCall_encfail_shape h fn none false hfail

/-- Witness for the amended C4, both parts: a handler shaped like
`func(ctx) (chan int, error)` whose function returns an unmarshallable
value together with a non-nil error performs no encode (the error path
runs) and its trace is single-commit; a handler shaped like
`func(ctx) (chan int, ⟬⟭ResponseFunc, error)` returning an unmarshallable
value and a nil error hits the encode failure and still commits the fixed
500. -/
theorem c4_single_commit_witness :
    singleCommitTrace (ServeHTTP ⟨false, none, 1, 0, -1⟩
      (fun _ => [GoVal.unencodable,
                 GoVal.errVal (some (Error 503 "downstream down"))])
      ⟨Except.ok (GoVal.json Json.null)⟩).events = true ∧
    commit (ServeHTTP ⟨false, none, 2, 0, 1⟩
      (fun _ => [GoVal.unencodable,
                 GoVal.opts [[RespOp.setStatus 418]],
                 GoVal.errVal none])
      ⟨Except.ok (GoVal.json Json.null)⟩).events =
      ⟨500, [("Content-Type", "text/plain; charset=utf-8"),
             ("X-Content-Type-Options", "nosniff")],
       "Internal error: Encoding response failed\n"⟩ := by
  constructor
  · exact (c4_single_commit_per_request ⟨false, none, 1, 0, -1⟩
      (fun _ => [GoVal.unencodable,
                 GoVal.errVal (some (Error 503 "downstream down"))])
      ⟨Except.ok (GoVal.json Json.null)⟩).1 rfl
  · obtain ⟨tail, hpre, hmem, hcnt, hcommit⟩ :=
      (c4_single_commit_per_request ⟨false, none, 2, 0, 1⟩
        (fun _ => [GoVal.unencodable,
                   GoVal.opts [[RespOp.setStatus 418]],
                   GoVal.errVal none])
        ⟨Except.ok (GoVal.json Json.null)⟩).2 rfl
    exact hcommit

/-- C8 counterexample: a handler built from `func(ctx, string)` declares
neither a payload-role nor an error-role return, yet a request whose body
fails to decode is answered with status 400, not a bare 200. -/
theorem c8_counterexample_decode_failure :
    parseHandler (Candidate.func [goContextType, goStringType] []) =
      Except.ok ⟨true, some goStringType, -1, -1, -1⟩ ∧
    (commit (ServeHTTP ⟨true, some goStringType, -1, -1, -1⟩ (fun _ => [])
      ⟨Except.error "json: cannot unmarshal array into string"⟩).events).status
      = 400 :=
  ⟨rfl, rfl⟩

/-- C8 amended: for a handler declaring neither a payload-role nor an
error-role return, every request that does not fail payload decoding is
answered with a bare 200: the trace is a single `WriteHeader 200`, the
body is empty, no encoding is attempted and a declared callback-role
return is not applied. -/
theorem c8_no_usable_returns_bare_200 (h : HandlerDesc)
    (fn : Option GoVal → List GoVal) (r : Req)
    (hout : h.outN < 0) (herr : h.errN < 0)
    (hdec : h.takesPayload = true → r.decodeOk = true) :
    (ServeHTTP h fn r).events = [WEvent.writeHeader 200] ∧
    commit (ServeHTTP h fn r).events = ⟨200, [], ""⟩ := by
  have hev : (ServeHTTP h fn r).events = [WEvent.writeHeader 200] := by
    by_cases htp : h.takesPayload = true
    · cases hd : r.decodeResult with
      | error e =>
        have hok := hdec htp
        simp [Req.decodeOk, hd] at hok
      | ok pl =>
        simp only [ServeHTTP, htp, if_true, hd]
        unfold serveCall
        rw [if_pos ⟨hout, herr⟩]
    · have htp2 : h.takesPayload = false := by simpa using htp
      simp only [ServeHTTP, htp2, Bool.false_eq_true, if_false]
      unfold serveCall
      rw [if_pos ⟨hout, herr⟩]
  refine ⟨hev, ?_⟩
  rw [hev]
  rfl

/-- Witness for the amended C8 at the shape of the repository's
"Only writes 201" test: a handler declaring only a callback-role return
commits a bare 200 and the callback that sets 201 is never applied. -/
theorem c8_bare_200_witness :
    (ServeHTTP ⟨false, none, -1, -1, 0⟩
      (fun _ => [GoVal.opts [[RespOp.setStatus 201]]])
      ⟨Except.ok (GoVal.json Json.null)⟩).events =
      [WEvent.writeHeader 200] ∧
    commit (ServeHTTP ⟨false, none, -1, -1, 0⟩
      (fun _ => [GoVal.opts [[RespOp.setStatus 201]]])
      ⟨Except.ok (GoVal.json Json.null)⟩).events = ⟨200, [], ""⟩ :=
  c8_no_usable_returns_bare_200 ⟨false, none, -1, -1, 0⟩
    (fun _ => [GoVal.opts [[RespOp.setStatus 201]]])
    ⟨Except.ok (GoVal.json Json.null)⟩ (by decide) (by decide)
    (fun hh => nomatch hh)

/-- C10: the structural return classifier is total with payload as the
default — it never yields `returnInvalid`, and any type that neither
implements `error` nor is a callback slice is classified payload-role —
so such a type (here a channel type, unmarshallable) is accepted at
construction and the failure only surfaces at encode time as the fixed
500 response. -/
theorem c10_classification_total_payload_default :
    (∀ t : GoType, getReturnType t ≠ ReturnType.invalid) ∧
    (∀ t : GoType, t.implementsError = false →
      (t.isSliceOfFunc && t.elemConvertibleToResponseFunc) = false →
      getReturnType t = ReturnType.payload) ∧
    parseHandler (Candidate.func [goContextType] [goChanType]) =
      Except.ok ⟨false, none, -1, 0, -1⟩ ∧
    encodeVal GoVal.unencodable = Except.error () ∧
    (commit (ServeHTTP ⟨false, none, -1, 0, -1⟩
      (fun _ => [GoVal.unencodable])
      ⟨Except.ok (GoVal.json Json.null)⟩).events).status = 500 := by
  refine ⟨?_, ?_, rfl, rfl, rfl⟩
  · intro t
    unfold getReturnType
    split_ifs <;> simp
  · intro t h1 h2
    unfold getReturnType
    rw [h1, h2]
    rfl

/-- Witness for C10 at the channel type. -/
theorem c10_classification_witness :
    getReturnType goChanType = ReturnType.payload ∧
    getReturnType goChanType ≠ ReturnType.invalid :=
  ⟨c10_classification_total_payload_default.2.1 goChanType rfl rfl,
   c10_classification_total_payload_default.1 goChanType⟩

end Jsonhandler
